import Mathlib

/-!
Shallow embedding of `normalizer.py` (flariut/stem_normalizer).

The program normalizes the loudness of a folder of audio "stems": it decodes
every recognized audio file, sums them into a reference mix, measures the
mix's integrated loudness, computes a uniform dB gain correction
(target - measured), applies it to every stem, writes the adjusted stems out
as WAV files, and re-verifies the written output.

Modelling conventions:
  - Decoded audio (pydub `AudioSegment`) is a list of real-valued amplitude
    samples together with a frame rate.  Integer quantization, clipping and
    codec compression performed by the external codec libraries (pydub /
    ffmpeg / soundfile) are outside the model: the spec treats those
    libraries as external collaborators and describes sample data as real
    amplitude values.
  - `overlay` follows pydub semantics: the result spans the receiver
    (`self`); the overlaid segment is summed where it overlaps and truncated
    past the receiver's end.  pydub's `_sync` picks the highest frame rate
    of the two operands, modelled by `max` (resampling itself is external
    codec behaviour; the spec's Stem Set invariant says all stems of one set
    share a frame rate, and every claim is exercised under that invariant).
  - `AudioSegment.silent(duration=...)` is modelled as a zero buffer with
    the reference stem's sample count and frame rate (under the shared-rate
    invariant this is the buffer the source builds from
    `stems[0].duration_seconds * 1000`).
  - The loudness meter (pyloudnorm) is an external collaborator; it is
    modelled by its documented BS.1770 integrated-loudness contract:
    `-0.691 + 10 * log10(mean square power)`.  K-weighting and block gating
    are internal DSP details of the external library and are not modelled.
  - Python exceptions are modelled by explicit outcome constructors
    (`assertionError`, `nameError`), and the "no audio files" early return
    by a dedicated constructor.
-/

/-- Container formats handled by the audio I/O adapter; `wav` is the format
every adjusted stem is exported in (`format='wav'` in the source). -/
inductive AudioFormat where
  | wav
  | mp3
  | flac
  | aac
  | ogg
  | m4a
  deriving DecidableEq

/-- A decoded audio segment (pydub `AudioSegment`): real amplitude samples
plus a frame rate.  Mono is modelled; channel handling is internal to the
external codec library. -/
structure AudioSegment where
  samples : List ℝ
  frame_rate : ℕ

/-- An encoded on-disk audio file produced by `AudioSegment.export`: the
container format together with the (losslessly modelled) payload. -/
structure EncodedFile where
  format : AudioFormat
  data : List ℝ
  frame_rate : ℕ

/-- One directory entry of a stems folder: a filename and the audio content
that decoding that file yields.  Entries whose names do not match a
recognized audio extension are never decoded by the pipeline, so their
`audio` field is irrelevant to every claim. -/
structure FSFile where
  name : String
  audio : AudioSegment

/-- Line 11 of the source: the recognized audio extensions. -/
def VALID_AUDIO_EXTENSIONS : List String :=
  [".wav", ".mp3", ".flac", ".aac", ".ogg", ".m4a"]

/-- Python `str.lower`, character by character (ASCII names in practice). -/
def pyLower (s : String) : String :=
  ⟨s.data.map Char.toLower⟩

/-- Python `str.endswith`. -/
def pyEndsWith (s ext : String) : Bool :=
  ext.data.isSuffixOf s.data

/-- Line 30 / line 63 of the source: does a filename match one of the
recognized audio extensions (case-insensitively)? -/
def isAudioFilename (filename : String) : Bool :=
  VALID_AUDIO_EXTENSIONS.any (fun ext => pyEndsWith (pyLower filename) ext)

/-- The sub-list of a folder's entries that the discovery loop keeps
(lines 29-34 and 62-66 of the source). -/
def audioEntries (folder : List FSFile) : List FSFile :=
  folder.filter (fun f => isAudioFilename f.name)

/-- `AudioSegment.export(..., format=fmt)`: the external codec encodes the
segment; the payload is modelled losslessly. -/
def exportFile (a : AudioSegment) (fmt : AudioFormat) : EncodedFile :=
  ⟨fmt, a.samples, a.frame_rate⟩

/-- `soundfile.read`: decodes an encoded file back to sample data and the
frame rate stored in its header. -/
def sf_read (f : EncodedFile) : List ℝ × ℕ :=
  (f.data, f.frame_rate)

/-- Mean square power of a sample buffer (0 for an empty buffer). -/
noncomputable def meanSquare (xs : List ℝ) : ℝ :=
  (xs.map (fun x => x * x)).sum / xs.length

/-- `pyln.Meter(sample_rate)`: a loudness meter calibrated to a sample
rate. -/
structure Meter where
  rate : ℕ

/-- `meter.integrated_loudness(data)`: the external pyloudnorm meter,
modelled by the documented BS.1770 integrated-loudness contract
`-0.691 + 10 * log10(mean square power)` (K-weighting and gating are
internal details of the external library). -/
noncomputable def Meter.integrated_loudness (_m : Meter) (data : List ℝ) : ℝ :=
  -0.691 + 10 * Real.logb 10 (meanSquare data)

/-- Lines 13-21 of the source (`calculate_loudness`): export the segment to
WAV, re-read it with soundfile, assert that the segment's frame rate equals
the rate read back from the file, then run the meter.  `none` models the
`AssertionError` raised when the assert fails. -/
noncomputable def calculate_loudness (audio_segment : AudioSegment) : Option ℝ :=
  let sample_rate := audio_segment.frame_rate
  let audio_bytes := exportFile audio_segment AudioFormat.wav
  let dr := sf_read audio_bytes
  if sample_rate = dr.2 then
    some (Meter.integrated_loudness ⟨sample_rate⟩ dr.1)
  else
    none

/-- Amplitude scaling of a segment by a linear factor (metadata preserved). -/
def scaleSamples (c : ℝ) (a : AudioSegment) : AudioSegment :=
  ⟨a.samples.map (fun x => c * x), a.frame_rate⟩

/-- The linear amplitude factor of a dB gain: `10 ^ (gain / 20)` (pydub's
`db_to_float`). -/
noncomputable def dbToLinear (gain_dB : ℝ) : ℝ :=
  (10 : ℝ) ^ (gain_dB / 20)

/-- pydub `AudioSegment.apply_gain`: scale every amplitude by
`10 ^ (gain / 20)`; frame rate and duration are preserved. -/
noncomputable def apply_gain (a : AudioSegment) (gain_dB : ℝ) : AudioSegment :=
  scaleSamples (dbToLinear gain_dB) a

/-- Lines 23-24 of the source (`adjust_gain`). -/
noncomputable def adjust_gain (audio_segment : AudioSegment) (gain_dB : ℝ) : AudioSegment :=
  apply_gain audio_segment gain_dB

/-- Line 40 of the source: `AudioSegment.silent(duration=ref.duration_seconds
* 1000)` under the Stem Set shared-frame-rate invariant — a zero buffer with
the reference stem's sample count and frame rate. -/
def silent (ref : AudioSegment) : AudioSegment :=
  ⟨List.replicate ref.samples.length 0, ref.frame_rate⟩

/-- pydub `AudioSegment.overlay` at position 0: the result spans `a`;
`b` is summed where it overlaps and truncated past `a`'s end; `_sync`
takes the higher frame rate. -/
def overlay (a b : AudioSegment) : AudioSegment :=
  ⟨(List.range a.samples.length).map
      (fun i => a.samples.getD i 0 + b.samples.getD i 0),
   max a.frame_rate b.frame_rate⟩

/-- Lines 40-42 (and 70-72) of the source: start from a silent buffer whose
duration is the first stem's duration, then overlay every stem onto it. -/
def combineMix (stems : List AudioSegment) : AudioSegment :=
  stems.foldl overlay (silent (stems.headD ⟨[], 0⟩))

/-- pydub `duration_seconds`. -/
noncomputable def duration_seconds (a : AudioSegment) : ℝ :=
  (a.samples.length : ℝ) / (a.frame_rate : ℝ)

/-- The data computed by a successful `adjust_stems_in_folder` run:
the measured input loudness, the uniform gain correction, the adjusted
stems, and the files written to the output folder (filename paired with the
exported content). -/
structure AdjustResult where
  measured : ℝ
  gain : ℝ
  adjusted : List AudioSegment
  outputs : List (String × EncodedFile)

/-- Outcome of `adjust_stems_in_folder` for one folder.
`noAudioFound` models the early return of lines 36-38 (the "No audio files
found" message is printed — the interpolated name `stems_folder` is the
function's own parameter, so no exception is raised — and no output folder
is created).  `assertionError` models an `AssertionError` escaping from
`calculate_loudness`. -/
inductive BatchResult where
  | noAudioFound
  | assertionError
  | done (r : AdjustResult)

/-- Lines 26-58 of the source (`adjust_stems_in_folder`): discover audio
files, combine them into the reference mix, measure it, compute the uniform
gain `target - measured`, apply it to every stem, and export every adjusted
stem under its original filename in WAV format. -/
noncomputable def adjust_stems_in_folder (folder : List FSFile) (target_loudness_LUFS : ℝ) :
    BatchResult :=
  let entries := audioEntries folder
  let stems := entries.map (fun f => f.audio)
  let filenames := entries.map (fun f => f.name)
  if stems.isEmpty then
    BatchResult.noAudioFound
  else
    match calculate_loudness (combineMix stems) with
    | none => BatchResult.assertionError
    | some combined_loudness_LUFS =>
      let gain_adjustment_dB := target_loudness_LUFS - combined_loudness_LUFS
      let adjusted_stems := stems.map (fun s => adjust_gain s gain_adjustment_dB)
      BatchResult.done
        ⟨combined_loudness_LUFS, gain_adjustment_dB, adjusted_stems,
         filenames.zip (adjusted_stems.map (fun s => exportFile s AudioFormat.wav))⟩

open Classical in
/-- `np.isclose(a, b, atol)` with numpy's default relative tolerance
`rtol = 1e-05`: true iff `|a - b| <= atol + rtol * |b|`. -/
noncomputable def np_isclose (a b atol : ℝ) : Bool :=
  decide (|a - b| ≤ atol + 0.00001 * |b|)

/-- Outcome of `verify_output_loudness`.  `nameError` models the `NameError`
raised on the empty branch of lines 67-69: the message interpolates
`stems_folder`, a name that is not in scope in this function (its parameter
is `output_folder`), so the print statement itself raises.  `result b`
models returning the numpy boolean of line 75. -/
inductive VerifyOutcome where
  | nameError
  | assertionError
  | result (b : Bool)

/-- Lines 60-75 of the source (`verify_output_loudness`): re-discover and
re-decode the written stems, rebuild the mix, re-measure, and compare to the
target with `np.isclose(..., atol=0.1)`. -/
noncomputable def verify_output_loudness (output_folder : List FSFile)
    (target_loudness_LUFS : ℝ) : VerifyOutcome :=
  let stems := (audioEntries output_folder).map (fun f => f.audio)
  if stems.isEmpty then
    VerifyOutcome.nameError
  else
    match calculate_loudness (combineMix stems) with
    | none => VerifyOutcome.assertionError
    | some combined_loudness_LUFS =>
      VerifyOutcome.result (np_isclose combined_loudness_LUFS target_loudness_LUFS 0.1)

/-! ### Concrete inputs used by witnesses and counterexamples -/

/-- A concrete one-stem folder (an mp3-named stem of one silent sample)
used to witness the completed-pipeline claims. -/
def F0 : List FSFile := [⟨"kick.mp3", ⟨[0], 1⟩⟩]

/-- The result record `adjust_stems_in_folder F0 (-14)` computes. -/
noncomputable def R0 : AdjustResult :=
  ⟨Meter.integrated_loudness ⟨1⟩ (combineMix [(⟨[0], 1⟩ : AudioSegment)]).samples,
   -14 - Meter.integrated_loudness ⟨1⟩ (combineMix [(⟨[0], 1⟩ : AudioSegment)]).samples,
   [adjust_gain ⟨[0], 1⟩
      (-14 - Meter.integrated_loudness ⟨1⟩ (combineMix [(⟨[0], 1⟩ : AudioSegment)]).samples)],
   [("kick.mp3",
     exportFile
       (adjust_gain ⟨[0], 1⟩
         (-14 - Meter.integrated_loudness ⟨1⟩ (combineMix [(⟨[0], 1⟩ : AudioSegment)]).samples))
       AudioFormat.wav)]⟩

/-- A concrete one-stem output folder whose mix has mean square power 1. -/
def F3 : List FSFile := [⟨"vocals.wav", ⟨[1], 44100⟩⟩]

/-- A folder with no recognized audio file (only a text file). -/
def F4 : List FSFile := [⟨"readme.txt", ⟨[], 0⟩⟩]

/-- A concrete non-silent one-stem set. -/
def W1 : List AudioSegment := [⟨[1], 1⟩]

/-- An all-silent stem set. -/
def Sz : List AudioSegment := [⟨[0], 1⟩]

/-! ### Helper lemmas about the embedded operations -/

/-- The WAV export / soundfile re-read round trip returns the segment's own
data and frame rate. -/
lemma sf_read_exportFile (a : AudioSegment) (fmt : AudioFormat) :
    sf_read (exportFile a fmt) = (a.samples, a.frame_rate) := rfl

/-- The assert inside `calculate_loudness` always passes, so the function
always returns the meter's value on the segment's own samples. -/
lemma calculate_loudness_eq (a : AudioSegment) :
    calculate_loudness a =
      some (Meter.integrated_loudness ⟨a.frame_rate⟩ a.samples) := by
  simp [calculate_loudness, sf_read, exportFile]

lemma getD_map_mul (c : ℝ) (l : List ℝ) (i : ℕ) :
    (l.map (fun x => c * x)).getD i 0 = c * l.getD i 0 := by
  induction l generalizing i with
  | nil => simp [List.getD]
  | cons x xs ih =>
    cases i with
    | zero => simp [List.getD]
    | succ j => simpa [List.getD] using ih j

lemma overlay_samples_length (a b : AudioSegment) :
    (overlay a b).samples.length = a.samples.length := by
  simp [overlay]

lemma overlay_frame_rate (a b : AudioSegment) :
    (overlay a b).frame_rate = max a.frame_rate b.frame_rate := rfl

lemma overlay_samples_getD (a b : AudioSegment) (i : ℕ)
    (h : i < a.samples.length) :
    (overlay a b).samples.getD i 0 = a.samples.getD i 0 + b.samples.getD i 0 := by
  have hlen : i < ((List.range a.samples.length).map
      (fun j => a.samples.getD j 0 + b.samples.getD j 0)).length := by simpa using h
  rw [overlay, List.getD_eq_getElem _ _ hlen]
  simp

lemma foldl_overlay_length (l : List AudioSegment) (acc : AudioSegment) :
    (l.foldl overlay acc).samples.length = acc.samples.length := by
  induction l generalizing acc with
  | nil => rfl
  | cons s t ih => simpa [overlay_samples_length] using ih (overlay acc s)

lemma foldl_overlay_getD (l : List AudioSegment) (acc : AudioSegment) (i : ℕ)
    (h : i < acc.samples.length) :
    (l.foldl overlay acc).samples.getD i 0 =
      acc.samples.getD i 0 + (l.map (fun s => s.samples.getD i 0)).sum := by
  induction l generalizing acc with
  | nil => simp
  | cons s t ih =>
    have h' : i < (overlay acc s).samples.length := by
      simpa [overlay_samples_length] using h
    calc ((s :: t).foldl overlay acc).samples.getD i 0
        = (t.foldl overlay (overlay acc s)).samples.getD i 0 := rfl
      _ = (overlay acc s).samples.getD i 0 +
            (t.map (fun u => u.samples.getD i 0)).sum := ih (overlay acc s) h'
      _ = acc.samples.getD i 0 +
            ((s :: t).map (fun u => u.samples.getD i 0)).sum := by
          rw [overlay_samples_getD acc s i h]
          simp [add_assoc]

lemma foldl_overlay_rate (l : List AudioSegment) (acc : AudioSegment) (r : ℕ)
    (hacc : acc.frame_rate = r) (hl : ∀ s ∈ l, s.frame_rate = r) :
    (l.foldl overlay acc).frame_rate = r := by
  induction l generalizing acc with
  | nil => simpa using hacc
  | cons s t ih =>
    have hs : s.frame_rate = r := hl s (by simp)
    have : (overlay acc s).frame_rate = r := by
      simp [overlay_frame_rate, hacc, hs]
    exact ih (overlay acc s) this (fun u hu => hl u (by simp [hu]))

lemma getD_replicate_zero (n i : ℕ) : (List.replicate n (0 : ℝ)).getD i 0 = 0 := by
  rcases Nat.lt_or_ge i n with h | h
  · rw [List.getD_eq_getElem _ _ (by simpa using h)]
    simp
  · rw [List.getD_eq_default _ _ (by simpa using h)]

/-- Sample count of the combined mix: the first stem's sample count. -/
lemma combineMix_length (stems : List AudioSegment) :
    (combineMix stems).samples.length = (stems.headD ⟨[], 0⟩).samples.length := by
  simpa [combineMix, silent] using foldl_overlay_length stems (silent (stems.headD ⟨[], 0⟩))

/-- Pointwise value of the combined mix: the sum over all stems of their
`i`-th sample, a missing sample contributing 0. -/
lemma combineMix_getD (stems : List AudioSegment) (i : ℕ)
    (h : i < (stems.headD ⟨[], 0⟩).samples.length) :
    (combineMix stems).samples.getD i 0 =
      (stems.map (fun s => s.samples.getD i 0)).sum := by
  have h' : i < (silent (stems.headD ⟨[], 0⟩)).samples.length := by
    simpa [silent] using h
  have hz : (silent (stems.headD ⟨[], 0⟩)).samples.getD i 0 = 0 :=
    getD_replicate_zero _ _
  have hfold := foldl_overlay_getD stems (silent (stems.headD ⟨[], 0⟩)) i h'
  rw [hz, zero_add] at hfold
  simpa [combineMix] using hfold

lemma scaleSamples_silent (c : ℝ) (a : AudioSegment) :
    silent (scaleSamples c a) = scaleSamples c (silent a) := by
  simp [silent, scaleSamples, List.map_replicate]

lemma scaleSamples_overlay (c : ℝ) (a b : AudioSegment) :
    overlay (scaleSamples c a) (scaleSamples c b) = scaleSamples c (overlay a b) := by
  simp only [overlay, scaleSamples, List.length_map, List.map_map]
  congr 1
  refine List.map_congr_left (fun i _ => ?_)
  simp only [Function.comp_apply]
  rw [getD_map_mul, getD_map_mul, mul_add]

lemma foldl_overlay_scale (c : ℝ) (l : List AudioSegment) (acc : AudioSegment) :
    (l.map (scaleSamples c)).foldl overlay (scaleSamples c acc) =
      scaleSamples c (l.foldl overlay acc) := by
  induction l generalizing acc with
  | nil => rfl
  | cons s t ih =>
    simp only [List.map_cons, List.foldl_cons, scaleSamples_overlay]
    exact ih (overlay acc s)

/-- Scaling every stem by the same factor scales the combined mix. -/
lemma combineMix_map_scale (c : ℝ) (stems : List AudioSegment) :
    combineMix (stems.map (scaleSamples c)) = scaleSamples c (combineMix stems) := by
  cases stems with
  | nil => simp [combineMix, silent, scaleSamples]
  | cons s t =>
    simp only [combineMix, List.map_cons, List.headD_cons, List.foldl_cons,
      scaleSamples_silent, scaleSamples_overlay]
    exact foldl_overlay_scale c t (overlay (silent s) s)

lemma sum_map_mul_left (c : ℝ) (l : List ℝ) (f : ℝ → ℝ) :
    (l.map (fun x => c * f x)).sum = c * (l.map f).sum := by
  induction l with
  | nil => simp
  | cons x xs ih => simp [ih, mul_add]

/-- Scaling all samples by `c` multiplies the mean square power by `c * c`. -/
lemma meanSquare_map_mul (c : ℝ) (l : List ℝ) :
    meanSquare (l.map (fun x => c * x)) = (c * c) * meanSquare l := by
  simp only [meanSquare, List.map_map, List.length_map]
  have h1 : (l.map ((fun x => x * x) ∘ fun x => c * x)) =
      l.map (fun x => (c * c) * (x * x)) := by
    refine List.map_congr_left (fun x _ => ?_)
    simp [Function.comp]; ring
  rw [h1, sum_map_mul_left, mul_div_assoc]

/-- dB homogeneity of the modelled meter: scaling a non-silent buffer by a
positive factor `c` shifts its integrated loudness by `20 * log10 c`. -/
lemma integrated_loudness_scale (m m' : Meter) (c : ℝ) (hc : 0 < c)
    (l : List ℝ) (hl : 0 < meanSquare l) :
    Meter.integrated_loudness m' (l.map (fun x => c * x)) =
      Meter.integrated_loudness m l + 20 * Real.logb 10 c := by
  have hcc : (0 : ℝ) < c * c := mul_pos hc hc
  simp only [Meter.integrated_loudness, meanSquare_map_mul]
  rw [Real.logb_mul hcc.ne' hl.ne', Real.logb_mul hc.ne' hc.ne']
  ring

/-- `20 * log10 (10 ^ (g / 20)) = g`: the dB-to-linear conversion is the
section of base-10 log measurement. -/
lemma logb_dbToLinear (g : ℝ) : 20 * Real.logb 10 (dbToLinear g) = g := by
  have h : Real.logb 10 ((10 : ℝ) ^ (g / 20)) = g / 20 :=
    Real.logb_rpow (by norm_num) (by norm_num)
  have h2 : dbToLinear g = (10 : ℝ) ^ (g / 20) := rfl
  rw [h2, h]
  ring

lemma dbToLinear_pos (g : ℝ) : 0 < dbToLinear g :=
  Real.rpow_pos_of_pos (by norm_num) _

lemma isEmpty_map {α β : Type} (f : α → β) (l : List α) :
    (l.map f).isEmpty = l.isEmpty := by
  cases l <;> simp

/-! ### Claim theorems -/

/-- C7: applying a gain of 0 dB is the identity on the stem's sample
values (`apply_gain` scales by `10 ^ (0 / 20) = 1`). -/
theorem C7_zero_gain_identity (stem : AudioSegment) :
    (adjust_gain stem 0).samples = stem.samples := by
  have h1 : dbToLinear 0 = 1 := by
    rw [dbToLinear, zero_div, Real.rpow_zero]
  simp [adjust_gain, apply_gain, scaleSamples, h1]

/-- C8: gain composition is decibel-additive — applying `g1` then `g2`
equals applying the single gain `g1 + g2` (exactly, in the real-amplitude
model; codec quantization is external). -/
theorem C8_gain_additive (stem : AudioSegment) (g1 g2 : ℝ) :
    adjust_gain (adjust_gain stem g1) g2 = adjust_gain stem (g1 + g2) := by
  have h : dbToLinear (g1 + g2) = dbToLinear g1 * dbToLinear g2 := by
    rw [dbToLinear, dbToLinear, dbToLinear, add_div, Real.rpow_add (by norm_num)]
  simp only [adjust_gain, apply_gain, scaleSamples, List.map_map, h]
  congr 1
  refine List.map_congr_left (fun x _ => ?_)
  simp only [Function.comp_apply]
  ring

/-- C9: the sample-rate assertion inside `calculate_loudness` never fails:
the WAV export / soundfile read round trip returns the mix's own frame
rate, so the meter's calibration rate always equals the audio's rate and
the fatal branch is unreachable from both pipeline entry points. -/
theorem C9_sample_rate_assert :
    (∀ a : AudioSegment,
        calculate_loudness a =
          some (Meter.integrated_loudness ⟨a.frame_rate⟩ a.samples)) ∧
    (∀ (folder : List FSFile) (t : ℝ),
        adjust_stems_in_folder folder t ≠ BatchResult.assertionError) ∧
    (∀ (folder : List FSFile) (t : ℝ),
        verify_output_loudness folder t ≠ VerifyOutcome.assertionError) := by
  refine ⟨calculate_loudness_eq, ?_, ?_⟩
  · intro folder t h
    simp only [adjust_stems_in_folder, calculate_loudness_eq] at h
    split at h <;> simp_all
  · intro folder t h
    simp only [verify_output_loudness, calculate_loudness_eq] at h
    split at h <;> simp_all

/-- C6: a folder containing zero files with a recognized audio extension
makes the batch pipeline take the "no audio files found" early return: the
message is reported (the interpolated name is in scope here, so no
exception propagates) and no output folder is produced. -/
theorem C6_no_audio_files (folder : List FSFile) (t : ℝ)
    (h : audioEntries folder = []) :
    adjust_stems_in_folder folder t = BatchResult.noAudioFound := by
  simp [adjust_stems_in_folder, h]

theorem C6_no_audio_files_witness :
    audioEntries [⟨"notes.txt", ⟨[], 0⟩⟩] = [] ∧
    adjust_stems_in_folder [⟨"notes.txt", ⟨[], 0⟩⟩] (-14) = BatchResult.noAudioFound :=
  ⟨rfl, C6_no_audio_files [⟨"notes.txt", ⟨[], 0⟩⟩] (-14) rfl⟩

/-- C5: for a non-empty stem sequence (sharing a frame rate, the Stem Set
invariant), the combined mix has the first stem's sample count and
duration; sample `i` of the mix is the sum over all stems of their sample
`i`, a stem shorter than the reference contributing 0 past its own length
(zero-padding) and samples of longer stems past the reference length being
dropped (truncation). -/
theorem C5_combine_first_duration (stems : List AudioSegment)
    (h : stems ≠ [])
    (hr : ∀ s ∈ stems, s.frame_rate = (stems.headD ⟨[], 0⟩).frame_rate) :
    (combineMix stems).samples.length = (stems.headD ⟨[], 0⟩).samples.length ∧
    duration_seconds (combineMix stems) = duration_seconds (stems.headD ⟨[], 0⟩) ∧
    ∀ i < (stems.headD ⟨[], 0⟩).samples.length,
      (combineMix stems).samples.getD i 0 =
        (stems.map (fun s => s.samples.getD i 0)).sum := by
  refine ⟨combineMix_length stems, ?_, fun i hi => combineMix_getD stems i hi⟩
  have hrate : (combineMix stems).frame_rate = (stems.headD ⟨[], 0⟩).frame_rate :=
    foldl_overlay_rate stems (silent (stems.headD ⟨[], 0⟩)) _ (by simp [silent]) hr
  rw [duration_seconds, duration_seconds, hrate, combineMix_length]

theorem C5_combine_first_duration_witness :
    ([⟨[1, 2], 10⟩, ⟨[5], 10⟩, ⟨[1, 2, 3], 10⟩] : List AudioSegment) ≠ [] ∧
    (∀ s ∈ ([⟨[1, 2], 10⟩, ⟨[5], 10⟩, ⟨[1, 2, 3], 10⟩] : List AudioSegment),
        s.frame_rate =
          (([⟨[1, 2], 10⟩, ⟨[5], 10⟩, ⟨[1, 2, 3], 10⟩] :
              List AudioSegment).headD ⟨[], 0⟩).frame_rate) ∧
    ((combineMix [⟨[1, 2], 10⟩, ⟨[5], 10⟩, ⟨[1, 2, 3], 10⟩]).samples.length =
        (([⟨[1, 2], 10⟩, ⟨[5], 10⟩, ⟨[1, 2, 3], 10⟩] :
            List AudioSegment).headD ⟨[], 0⟩).samples.length ∧
      duration_seconds (combineMix [⟨[1, 2], 10⟩, ⟨[5], 10⟩, ⟨[1, 2, 3], 10⟩]) =
        duration_seconds
          (([⟨[1, 2], 10⟩, ⟨[5], 10⟩, ⟨[1, 2, 3], 10⟩] :
              List AudioSegment).headD ⟨[], 0⟩) ∧
      ∀ i < (([⟨[1, 2], 10⟩, ⟨[5], 10⟩, ⟨[1, 2, 3], 10⟩] :
          List AudioSegment).headD ⟨[], 0⟩).samples.length,
        (combineMix [⟨[1, 2], 10⟩, ⟨[5], 10⟩, ⟨[1, 2, 3], 10⟩]).samples.getD i 0 =
          (([⟨[1, 2], 10⟩, ⟨[5], 10⟩, ⟨[1, 2, 3], 10⟩] :
              List AudioSegment).map (fun s => s.samples.getD i 0)).sum) :=
  ⟨by simp, by simp,
   C5_combine_first_duration [⟨[1, 2], 10⟩, ⟨[5], 10⟩, ⟨[1, 2, 3], 10⟩]
     (by simp) (by simp)⟩

/-- C2: whenever the pipeline completes on a folder, the computed gain
correction is exactly `target - measured` (a pure subtraction, `measured`
being the loudness of the combined input mix), and every stem of the set is
adjusted with that same single correction value. -/
theorem C2_uniform_gain_subtraction (folder : List FSFile) (t : ℝ)
    (r : AdjustResult)
    (h : adjust_stems_in_folder folder t = BatchResult.done r) :
    calculate_loudness (combineMix ((audioEntries folder).map (fun f => f.audio))) =
        some r.measured ∧
    r.gain = t - r.measured ∧
    r.adjusted = ((audioEntries folder).map (fun f => f.audio)).map
        (fun s => adjust_gain s r.gain) := by
  simp only [adjust_stems_in_folder, calculate_loudness_eq] at h
  split at h
  · exact absurd h (by simp)
  · cases h
    exact ⟨calculate_loudness_eq _, rfl, rfl⟩

/-- C10: whenever the pipeline completes on a folder, the i-th written file
keeps the i-th discovered stem's original filename — extension included —
while its content is the WAV-format export of that stem after gain
adjustment. -/
theorem C10_export_naming (folder : List FSFile) (t : ℝ) (r : AdjustResult)
    (h : adjust_stems_in_folder folder t = BatchResult.done r) :
    r.outputs = (audioEntries folder).map
        (fun f => (f.name, exportFile (adjust_gain f.audio r.gain) AudioFormat.wav)) ∧
    ∀ p ∈ r.outputs, p.2.format = AudioFormat.wav := by
  simp only [adjust_stems_in_folder, calculate_loudness_eq] at h
  split at h
  · exact absurd h (by simp)
  · cases h
    constructor
    · simp only [List.map_map]
      exact List.zip_map' _ _ _
    · intro p hp
      simp only [List.map_map] at hp
      rw [List.zip_map' _ _ _] at hp
      obtain ⟨f, _, rfl⟩ := List.mem_map.mp hp
      rfl

lemma adjust_F0 : adjust_stems_in_folder F0 (-14) = BatchResult.done R0 := rfl

theorem C2_uniform_gain_subtraction_witness :
    adjust_stems_in_folder F0 (-14) = BatchResult.done R0 ∧
    (calculate_loudness (combineMix ((audioEntries F0).map (fun f => f.audio))) =
        some R0.measured ∧
      R0.gain = -14 - R0.measured ∧
      R0.adjusted = ((audioEntries F0).map (fun f => f.audio)).map
        (fun s => adjust_gain s R0.gain)) :=
  ⟨adjust_F0, C2_uniform_gain_subtraction F0 (-14) R0 adjust_F0⟩

theorem C10_export_naming_witness :
    adjust_stems_in_folder F0 (-14) = BatchResult.done R0 ∧
    (R0.outputs = (audioEntries F0).map
        (fun f => (f.name, exportFile (adjust_gain f.audio R0.gain) AudioFormat.wav)) ∧
      ∀ p ∈ R0.outputs, p.2.format = AudioFormat.wav) :=
  ⟨adjust_F0, C10_export_naming F0 (-14) R0 adjust_F0⟩

/-- C3 (amended): on a non-empty output folder the verifier re-decodes the
written stems, rebuilds the mix, re-measures, and returns true iff the
re-measured loudness is within `0.1 + 1e-5 * |target|` of the target — the
tolerance `np.isclose(..., atol=0.1)` actually checks, its default relative
tolerance `rtol = 1e-5` included. -/
theorem C3_verify_tolerance (folder : List FSFile) (t : ℝ)
    (h : (audioEntries folder).isEmpty = false) :
    ∃ L, calculate_loudness (combineMix ((audioEntries folder).map (fun f => f.audio))) =
        some L ∧
      (verify_output_loudness folder t = VerifyOutcome.result true ↔
        |L - t| ≤ 0.1 + 0.00001 * |t|) := by
  refine ⟨_, calculate_loudness_eq _, ?_⟩
  have hne : (((audioEntries folder).map (fun f => f.audio)).isEmpty) = false := by
    rw [isEmpty_map]
    exact h
  simp only [verify_output_loudness, hne, Bool.false_eq_true, if_false,
    calculate_loudness_eq]
  rw [np_isclose]
  constructor
  · intro hres
    have hb := VerifyOutcome.result.inj hres
    exact of_decide_eq_true hb
  · intro hle
    exact congrArg VerifyOutcome.result (decide_eq_true hle)

theorem C3_verify_tolerance_witness :
    (audioEntries F3).isEmpty = false ∧
    (∃ L, calculate_loudness (combineMix ((audioEntries F3).map (fun f => f.audio))) =
        some L ∧
      (verify_output_loudness F3 (-14) = VerifyOutcome.result true ↔
        |L - (-14 : ℝ)| ≤ 0.1 + 0.00001 * |(-14 : ℝ)|)) :=
  ⟨rfl, C3_verify_tolerance F3 (-14) rfl⟩

/-- C3 counterexample to the claim as stated: on this concrete folder the
re-measured loudness is -0.691 LUFS and the target is -0.7910079 LUFS, a
difference of 0.1000079 LUFS — strictly more than 0.1 — yet the verifier
returns true, because numpy's isclose adds `rtol * |target|` to the
absolute tolerance. -/
theorem C3_verify_tolerance_counterexample :
    calculate_loudness (combineMix ((audioEntries F3).map (fun f => f.audio))) =
        some (-0.691) ∧
    ¬ (|(-0.691 : ℝ) - (-0.7910079)| ≤ 0.1) ∧
    verify_output_loudness F3 (-0.7910079) = VerifyOutcome.result true := by
  have hsamp : (combineMix ((audioEntries F3).map (fun f => f.audio))).samples =
      [0 + 1] := rfl
  have habs : (-0.691 : ℝ) - (-0.7910079) = 0.1000079 := by norm_num
  have hml : Meter.integrated_loudness
      ⟨(combineMix ((audioEntries F3).map (fun f => f.audio))).frame_rate⟩
      (combineMix ((audioEntries F3).map (fun f => f.audio))).samples = -0.691 := by
    rw [Meter.integrated_loudness, hsamp]
    have hms : meanSquare [(0 : ℝ) + 1] = 1 := by
      simp [meanSquare]
    rw [hms, Real.logb_one]
    norm_num
  have hmeas : calculate_loudness (combineMix ((audioEntries F3).map (fun f => f.audio))) =
      some (-0.691) := by
    rw [calculate_loudness_eq, hml]
  refine ⟨hmeas, ?_, ?_⟩
  · rw [habs, abs_of_pos (by norm_num)]
    norm_num
  · have hne : (((audioEntries F3).map (fun f => f.audio)).isEmpty) = false := rfl
    simp only [verify_output_loudness, hne, Bool.false_eq_true, if_false, hmeas]
    refine congrArg VerifyOutcome.result ?_
    rw [np_isclose]
    refine decide_eq_true ?_
    rw [habs, abs_of_pos (by norm_num), abs_of_neg (by norm_num)]
    norm_num

/-- C4 (code bug): called on an output folder containing zero recognized
audio files, `verify_output_loudness` does not log-and-return an
inconclusive result — its "no audio files found" print interpolates
`stems_folder`, a name that is not in scope in this function, so the branch
raises `NameError` and the exception propagates to the folder driver. -/
theorem C4_empty_folder_name_error :
    verify_output_loudness F4 (-14) = VerifyOutcome.nameError := rfl

/-- C1 (amended): for every non-empty stem set whose combined mix is not
silent (positive mean square power), measuring the mix, applying the gain
`target - measured` to every stem, recombining and re-measuring yields
exactly the target loudness, hence a loudness within 0.1 LUFS of the
target. -/
theorem C1_pipeline_convergence (stems : List AudioSegment) (t M : ℝ)
    (h1 : stems ≠ [])
    (h2 : 0 < meanSquare (combineMix stems).samples)
    (hM : calculate_loudness (combineMix stems) = some M) :
    ∃ L, calculate_loudness
        (combineMix (stems.map (fun s => adjust_gain s (t - M)))) = some L ∧
      |L - t| ≤ 0.1 := by
  have hM2 : Meter.integrated_loudness ⟨(combineMix stems).frame_rate⟩
      (combineMix stems).samples = M := by
    have hcl := calculate_loudness_eq (combineMix stems)
    rw [hM] at hcl
    exact (Option.some.inj hcl).symm
  have hmap : stems.map (fun s => adjust_gain s (t - M)) =
      stems.map (scaleSamples (dbToLinear (t - M))) := rfl
  have hmix : combineMix (stems.map (scaleSamples (dbToLinear (t - M)))) =
      scaleSamples (dbToLinear (t - M)) (combineMix stems) :=
    combineMix_map_scale _ stems
  refine ⟨t, ?_, by norm_num⟩
  rw [hmap, hmix, calculate_loudness_eq]
  refine congrArg some ?_
  have hscale := integrated_loudness_scale
    ⟨(combineMix stems).frame_rate⟩
    ⟨(scaleSamples (dbToLinear (t - M)) (combineMix stems)).frame_rate⟩
    (dbToLinear (t - M)) (dbToLinear_pos _) (combineMix stems).samples h2
  calc Meter.integrated_loudness
        ⟨(scaleSamples (dbToLinear (t - M)) (combineMix stems)).frame_rate⟩
        (scaleSamples (dbToLinear (t - M)) (combineMix stems)).samples
      = Meter.integrated_loudness ⟨(combineMix stems).frame_rate⟩
          (combineMix stems).samples + 20 * Real.logb 10 (dbToLinear (t - M)) :=
        hscale
    _ = M + (t - M) := by rw [hM2, logb_dbToLinear]
    _ = t := by ring

theorem C1_pipeline_convergence_witness :
    (W1 ≠ []) ∧
    (0 < meanSquare (combineMix W1).samples) ∧
    calculate_loudness (combineMix W1) = some (-0.691) ∧
    (∃ L, calculate_loudness
        (combineMix (W1.map (fun s => adjust_gain s (-14 - (-0.691))))) = some L ∧
      |L - (-14 : ℝ)| ≤ 0.1) := by
  have hsamp : (combineMix W1).samples = [0 + 1] := rfl
  have h1 : W1 ≠ [] := by simp [W1]
  have hms : meanSquare [(0 : ℝ) + 1] = 1 := by simp [meanSquare]
  have h2 : 0 < meanSquare (combineMix W1).samples := by
    rw [hsamp, hms]
    norm_num
  have hM : calculate_loudness (combineMix W1) = some (-0.691) := by
    rw [calculate_loudness_eq, hsamp]
    rw [Meter.integrated_loudness, hms, Real.logb_one]
    norm_num
  exact ⟨h1, h2, hM, C1_pipeline_convergence W1 (-14) (-0.691) h1 h2 hM⟩

/-- C1 counterexample to the claim as stated: on an all-silent (non-empty)
stem set the measured loudness is the meter's silence value, the computed
gain scales zeros to zeros, and the re-measured loudness is unchanged —
13.309 LUFS away from the target -14 LUFS, far outside 0.1. -/
theorem C1_pipeline_convergence_counterexample :
    calculate_loudness (combineMix Sz) = some (-0.691) ∧
    calculate_loudness
        (combineMix (Sz.map (fun s => adjust_gain s (-14 - (-0.691))))) =
      some (-0.691) ∧
    ¬ (|(-0.691 : ℝ) - (-14)| ≤ 0.1) := by
  have hsz : (combineMix Sz).samples = [0 + 0] := rfl
  have hsil : ∀ l : List ℝ, meanSquare l = 0 →
      ∀ m : Meter, Meter.integrated_loudness m l = -0.691 := by
    intro l hl m
    rw [Meter.integrated_loudness, hl, Real.logb_zero]
    norm_num
  refine ⟨?_, ?_, ?_⟩
  · rw [calculate_loudness_eq]
    refine congrArg some ?_
    rw [hsz]
    refine hsil _ ?_ _
    simp [meanSquare]
  · have hsz2 : (combineMix (Sz.map (fun s => adjust_gain s (-14 - (-0.691))))).samples =
        [0 + dbToLinear (-14 - (-0.691)) * 0] := rfl
    rw [calculate_loudness_eq]
    refine congrArg some ?_
    rw [hsz2]
    refine hsil _ ?_ _
    simp [meanSquare]
  · rw [show (-0.691 : ℝ) - (-14) = 13.309 by norm_num, abs_of_pos (by norm_num)]
    norm_num
